import Mathlib

/-!
Shallow embedding of the Chrome Trace Event Format importer
(src/static/app/utils/profiling/profile/chromeTraceProfile.tsx).

Modelling conventions:
* Machine numbers (`ts`, `dur`, `tdur`, weights) are `Int`; `pid`/`tid` are
  `Option Int` where `none` models "not a number" (the `typeof x !== 'number'`
  checks).  `ts` is modelled as always numeric, so the source's
  "First begin event contains no timestamp" guard is unreachable here.
* `args` is modelled by its canonical serialization (`argsKey`, standing for
  `JSON.stringify(event.args)`) together with `argsName`, which is
  `some s` exactly when `args.name` holds the string `s`
  (the `typeof event.args.name === 'string'` check).
* JavaScript exceptions are `Except ImportError`.  A `TypeError` raised by
  dereferencing `undefined` (reading the top of an empty stack inside
  `createFrameInfoFromEvent`) is the distinguished `typeErrorUndefined`.
* Stacks are lists with the top at the head (JS `push`/`pop` at the array
  end, `stack[stack.length - 1]` is the head here).
* The merge loop is fuel-indexed; `buildProfile` supplies
  `beginQueue.length + endQueue.length`, which is exact since every
  iteration consumes one queue element, so `outOfFuel` is unreachable
  from `buildProfile`.
-/

structure TraceEvent where
  pid : Option Int
  tid : Option Int
  ph : String
  ts : Int
  name : Option String
  argsKey : String
  argsName : Option String
  dur : Option Int
  tdur : Option Int
deriving DecidableEq, Repr

structure FrameInfo where
  key : String
  name : String
deriving DecidableEq, Repr

/-- Embeds `createFrameInfoFromEvent`: the key is the serialized `args`
and the display name is `` `${event?.name || 'Unknown'} ${key}`.trim() ``
(a JS empty string is falsy, hence the extra test). -/
def createFrameInfoFromEvent (event : TraceEvent) : FrameInfo :=
  let key := event.argsKey
  { key := key
    name := ((match event.name with
              | some n => if n = "" then "Unknown" else n
              | none => "Unknown") ++ " " ++ key).trim }

inductive ImportError where
  | noEvents
  | noFrameEvents
  | nothingToTake
  | unbalancedStack (key : String)
  | typeErrorUndefined
  | objectFormatUnsupported
  | formatError
  | outOfFuel
deriving DecidableEq, Repr

inductive NextQueue where
  | B
  | E
deriving DecidableEq, Repr

inductive ProfileCall where
  | enter (key : String) (ts : Int)
  | leave (key : String) (ts : Int)
deriving DecidableEq, Repr

def lookupAssoc {α β : Type} [DecidableEq α] : List (α × β) → α → Option β
  | [], _ => none
  | (k, v) :: rest, key => if k = key then some v else lookupAssoc rest key

/-- Modelled from the spec: the external profile accumulator
(`EventedProfile` from `./eventedProfile`, not part of the sources here).
Per spec section 3 it "accumulates a weighted call tree via ordered
enter/leave calls"; per the testable property on Complete events an
enter at 0 followed by a leave at 10 yields a frame of total weight 10.
The model therefore keeps, besides the chronological call log used to
state the claims, the accumulator's own open-frame stack (top first), a
per-frame-key total weight, and the timestamp of the last call: every
call at time `t` first distributes `t - lastValue` to every currently
open frame, then records itself.  A frame's mutable `totalWeight` field
is `weightOf` at its key (frames are deduplicated per key by the cache). -/
structure EventedProfile where
  name : String
  unit : String
  calls : List ProfileCall
  openKeys : List String
  weights : List (String × Int)
  lastValue : Int
deriving DecidableEq, Repr

def bumpWeight : List (String × Int) → String → Int → List (String × Int)
  | [], k, d => [(k, d)]
  | (k2, v) :: rest, k, d =>
      if k2 = k then (k2, v + d) :: rest else (k2, v) :: bumpWeight rest k d

def weightOf (p : EventedProfile) (k : String) : Int :=
  (lookupAssoc p.weights k).getD 0

/-- Modelled from the spec: distributing the elapsed time since the last
call to every currently open frame (each occurrence separately). -/
def addWeightToFrames (p : EventedProfile) (value : Int) : EventedProfile :=
  let delta := value - p.lastValue
  { p with weights := p.openKeys.foldl (fun w k => bumpWeight w k delta) p.weights }

/-- Modelled from the spec: the accumulator's enter-frame operation. -/
def enterFrame (p : EventedProfile) (k : String) (value : Int) : EventedProfile :=
  let q := addWeightToFrames p value
  { q with calls := q.calls ++ [ProfileCall.enter k value]
           openKeys := k :: q.openKeys
           lastValue := value }

/-- Modelled from the spec: the accumulator's leave-frame operation; like
the source's accumulator it pops its own stack top regardless of which
frame is being left. -/
def leaveFrame (p : EventedProfile) (k : String) (value : Int) : EventedProfile :=
  let q := addWeightToFrames p value
  { q with calls := q.calls ++ [ProfileCall.leave k value]
           openKeys := q.openKeys.tail
           lastValue := value }

/-- Embeds `new EventedProfile(0, 0, 0, name, 'milliseconds')`. -/
def initProfile (name : String) : EventedProfile :=
  { name := name, unit := "milliseconds", calls := [], openKeys := [],
    weights := [], lastValue := 0 }

/-- Embeds `getNextQueue` (lines 81-105): checks both-empty, then the
missing-head cases (end first), then strict timestamp comparisons; the
exact-tie fallthrough returns `'B'`. -/
def getNextQueue (beginQueue endQueue : List TraceEvent) :
    Except ImportError NextQueue :=
  if beginQueue = [] ∧ endQueue = [] then .error .noEvents
  else
    match endQueue with
    | [] => .ok .B
    | nextEnd :: _ =>
      match beginQueue with
      | [] => .ok .E
      | nextBegin :: _ =>
        if nextBegin.ts < nextEnd.ts then .ok .B
        else if nextEnd.ts < nextBegin.ts then .ok .E
        else .ok .B

abbrev FrameCache := List (String × FrameInfo)

def cacheInsertIfAbsent (cache : FrameCache) (fi : FrameInfo) : FrameCache :=
  if (lookupAssoc cache fi.key).isSome then cache else (fi.key, fi) :: cache

/-- Embeds the scan of lines 211-225 over the already-shifted end queue:
walk the entries after the new head, stop at the first whose timestamp
exceeds the new head's timestamp (`endQueue[i].ts > endQueue[0].ts`),
and report the first one whose FrameKey equals the stack top's key,
split as (entries before it, the match, entries after it). -/
def scanRun (topKey : String) (baseTs : Int) :
    List TraceEvent → Option (List TraceEvent × TraceEvent × List TraceEvent)
  | [] => none
  | e :: rest =>
    if baseTs < e.ts then none
    else if (createFrameInfoFromEvent e).key = topKey then some ([], e, rest)
    else
      match scanRun topKey baseTs rest with
      | none => none
      | some (pre, m, post) => some (e :: pre, m, post)

/-- Embeds the effect of the for-loop of lines 211-225 on `frameInfo` and
on the end queue: the loop runs over the queue AFTER the head was
shifted off, starting at index 1, so the element at index 0 of the
remaining queue is never key-checked; on a match at index `i` the
entries at indices 0 and `i` are swapped and `frameInfo` becomes the
matched entry's info. -/
def endScan (defaultInfo topInfo : FrameInfo) (queue : List TraceEvent) :
    FrameInfo × List TraceEvent :=
  match queue with
  | [] => (defaultInfo, queue)
  | e1 :: others =>
    match scanRun topInfo.key e1.ts others with
    | none => (defaultInfo, queue)
    | some (pre, m, post) => (createFrameInfoFromEvent m, m :: (pre ++ e1 :: post))

/-- Embeds the merge loop of lines 185-238.  Returns the accumulator, the
remaining call stack and the frame cache when both queues drain. -/
def drainLoop (firstTs : Int) :
    Nat → List TraceEvent → List TraceEvent → List TraceEvent → FrameCache →
    EventedProfile →
    Except ImportError (EventedProfile × List TraceEvent × FrameCache)
  | 0, bq, eq, stack, cache, prof =>
    if bq = [] ∧ eq = [] then .ok (prof, stack, cache) else .error .outOfFuel
  | fuel2 + 1, bq, eq, stack, cache, prof =>
    if bq = [] ∧ eq = [] then .ok (prof, stack, cache)
    else
        match getNextQueue bq eq with
        | .error err => .error err
        | .ok .B =>
          match bq with
          | [] => .error .nothingToTake
          | item :: bqrest =>
            let fi := createFrameInfoFromEvent item
            let cache2 := cacheInsertIfAbsent cache fi
            let frame := (lookupAssoc cache2 fi.key).getD fi
            drainLoop firstTs fuel2 bqrest eq (item :: stack) cache2
              (enterFrame prof frame.key (item.ts - firstTs))
        | .ok .E =>
          match eq with
          | [] => .error .typeErrorUndefined
          | item :: eqrest =>
            match stack with
            | [] => .error .typeErrorUndefined
            | top :: stackrest =>
              let res := endScan (createFrameInfoFromEvent item)
                (createFrameInfoFromEvent top) eqrest
              if (lookupAssoc cache res.1.key).isSome then
                let frame := (lookupAssoc cache res.1.key).getD res.1
                drainLoop firstTs fuel2 bq res.2 stackrest cache
                  (leaveFrame prof frame.key (item.ts - firstTs))
              else .error (.unbalancedStack res.1.key)

/-- Embeds the forced-close tail of lines 240-252: pop the remaining
stack (top first), look the frame up in the cache and leave it at its
own current total weight (`profile.leaveFrame(frame, frame.totalWeight)`). -/
def forcedTail : List TraceEvent → FrameCache → EventedProfile →
    Except ImportError EventedProfile
  | [], _, prof => .ok prof
  | item :: rest, cache, prof =>
    let fi := createFrameInfoFromEvent item
    match lookupAssoc cache fi.key with
    | none => .error (.unbalancedStack fi.key)
    | some frame =>
        forcedTail rest cache (leaveFrame prof frame.key (weightOf prof frame.key))

structure NormState where
  processName : String
  threadName : String
  beginQueue : List TraceEvent
  endQueue : List TraceEvent
deriving DecidableEq, Repr

def initNormState (processId threadId : String) : NormState :=
  { processName := "pid (" ++ processId ++ ")"
    threadName := "tid (" ++ threadId ++ ")"
    beginQueue := [], endQueue := [] }

/-- Embeds one iteration of the loop of lines 124-159 over the filtered
timeline events: metadata name capture, then pushing B/E events, then
expanding an X event with a numeric `dur` or `tdur` (preferring `dur`)
into a synthetic begin at `ts` and end at `ts + duration`. -/
def normStep (processId threadId : String) (s : NormState) (e : TraceEvent) :
    NormState :=
  if e.ph = "M" ∧ e.name = some "thread_name" ∧ e.argsName.isSome then
    { s with threadName := e.argsName.getD "" ++ " (" ++ threadId ++ ")" }
  else if e.ph = "M" ∧ e.name = some "process_name" ∧ e.argsName.isSome then
    { s with processName := e.argsName.getD "" ++ " (" ++ processId ++ ")" }
  else if e.ph = "B" then
    { s with beginQueue := s.beginQueue ++ [e] }
  else if e.ph = "E" then
    { s with endQueue := s.endQueue ++ [e] }
  else if e.ph = "X" ∧ (e.dur.isSome ∨ e.tdur.isSome) then
    { s with beginQueue := s.beginQueue ++ [{ e with ph := "B" }]
             endQueue := s.endQueue ++
               [{ e with ph := "E", ts := e.ts + (e.dur.getD (e.tdur.getD 0)) }] }
  else s

/-- Stable ascending-timestamp insertion, embedding
`sort(chronologicalSort)` (the comparator returns 0 on ties, so equal
timestamps keep their relative order). -/
def sortedInsertByTs (e : TraceEvent) : List TraceEvent → List TraceEvent
  | [] => [e]
  | x :: xs => if e.ts ≤ x.ts then e :: x :: xs else x :: sortedInsertByTs e xs

def stableSortByTs (l : List TraceEvent) : List TraceEvent :=
  l.foldr sortedInsertByTs []

/-- Embeds `buildProfile` (lines 107-255). -/
def buildProfile (processId threadId : String) (events : List TraceEvent) :
    Except ImportError EventedProfile :=
  let timelineEvents := events.filter
    (fun e => decide (e.ph = "B" ∨ e.ph = "E" ∨ e.ph = "X" ∨ e.ph = "M"))
  let ns := timelineEvents.foldl (normStep processId threadId)
    (initNormState processId threadId)
  let bq := stableSortByTs ns.beginQueue
  let eq := stableSortByTs ns.endQueue
  match bq with
  | [] => .error .noFrameEvents
  | first :: _ =>
    let prof := initProfile (ns.processName ++ ": " ++ ns.threadName)
    match drainLoop first.ts (bq.length + eq.length) bq eq [] [] prof with
    | .error err => .error err
    | .ok (p, stack, cache) => forcedTail stack cache p

abbrev Collections := List (Int × List (Int × List TraceEvent))

def addToThread (tcols : List (Int × List TraceEvent)) (tid : Int)
    (e : TraceEvent) : List (Int × List TraceEvent) :=
  match tcols with
  | [] => [(tid, [e])]
  | (t, evs) :: rest =>
      if t = tid then (t, evs ++ [e]) :: rest
      else (t, evs) :: addToThread rest tid e

def addToCollections (cols : Collections) (pid tid : Int) (e : TraceEvent) :
    Collections :=
  match cols with
  | [] => [(pid, [(tid, [e])])]
  | (p, tcols) :: rest =>
      if p = pid then (p, addToThread tcols tid e) :: rest
      else (p, tcols) :: addToCollections rest pid tid e

/-- Embeds one iteration of `splitEventsByProcessAndTraceId`'s loop: an
event whose `pid` or `tid` is not a number is skipped, the rest are
appended to their (pid, tid) bucket, buckets created on first sight. -/
def splitStep (cols : Collections) (e : TraceEvent) : Collections :=
  match e.pid, e.tid with
  | some pid, some tid => addToCollections cols pid tid e
  | _, _ => cols

/-- Embeds `splitEventsByProcessAndTraceId` (lines 43-69); the nested
association lists keep first-discovery order, which is the order the
source's `Record` properties were created in. -/
def splitEventsByProcessAndTraceId (trace : List TraceEvent) : Collections :=
  trace.foldl splitStep []

def insertAsc (x : Int) : List Int → List Int
  | [] => [x]
  | y :: ys => if x ≤ y then x :: y :: ys else y :: insertAsc x ys

def sortAsc (l : List Int) : List Int := l.foldr insertAsc []

/-- Embeds the order in which `for (const k in record)` visits the keys
whose values were stored under numeric ids: integer-like keys (the
non-negative ones, which stringify to array indices) come first in
ascending numeric order, the remaining keys in property-creation order.
Ids at or above 2^32 - 1 are not modelled. -/
def jsKeyOrder (keys : List Int) : List Int :=
  sortAsc (keys.filter (fun k => decide (0 ≤ k))) ++
    keys.filter (fun k => decide (k < 0))

/-- The (pid, tid, events) buckets in the order the nested `for ... in`
loops of lines 272-282 visit them. -/
def bucketSeqOf (cols : Collections) : List (Int × Int × List TraceEvent) :=
  (jsKeyOrder (cols.map Prod.fst)).flatMap (fun pid =>
    match lookupAssoc cols pid with
    | none => []
    | some tcols =>
        (jsKeyOrder (tcols.map Prod.fst)).filterMap (fun tid =>
          (lookupAssoc tcols tid).map (fun evs => (pid, tid, evs))))

def bucketSeq (input : List TraceEvent) : List (Int × Int × List TraceEvent) :=
  bucketSeqOf (splitEventsByProcessAndTraceId input)

/-- Embeds the loop body of lines 272-282: build each bucket's profile in
visit order, the first exception aborting the whole import. -/
def buildAll : List (Int × Int × List TraceEvent) →
    Except ImportError (List EventedProfile)
  | [] => .ok []
  | b :: rest =>
    match buildProfile (toString b.1) (toString b.2.1) b.2.2 with
    | .error err => .error err
    | .ok p =>
      match buildAll rest with
      | .error err => .error err
      | .ok ps => .ok (p :: ps)

structure ProfileGroup where
  name : String
  traceID : String
  activeProfileIndex : Nat
  profiles : List EventedProfile
deriving DecidableEq, Repr

/-- Embeds `parseChromeTraceArrayFormat` (lines 266-290). -/
def parseChromeTraceArrayFormat (input : List TraceEvent) :
    Except ImportError ProfileGroup :=
  match buildAll (bucketSeqOf (splitEventsByProcessAndTraceId input)) with
  | .error err => .error err
  | .ok profiles =>
      .ok { name := "chrometrace", traceID := "", activeProfileIndex := 0,
            profiles := profiles }

/-- Model of the importer's input domain: an array of events, a non-array
object that does or does not expose a `traceEvents` field, or a string
(any other primitive behaves like a string here). -/
inductive ChromeTraceInput where
  | arr (events : List TraceEvent)
  | obj (hasTraceEvents : Bool)
  | str (s : String)
deriving DecidableEq, Repr

/-- Embeds `isChromeTraceObjectFormat`: `typeof input === 'object'` and
`'traceEvents' in input` (an array from the array format carries no such
field). -/
def isChromeTraceObjectFormat : ChromeTraceInput → Bool
  | .obj b => b
  | _ => false

def isChromeTraceArrayFormat : ChromeTraceInput → Bool
  | .arr _ => true
  | _ => false

/-- Embeds `importChromeTrace` (lines 29-38): the object-format check
comes first, then array dispatch, then the generic failure. -/
def importChromeTrace (input : ChromeTraceInput) :
    Except ImportError ProfileGroup :=
  if isChromeTraceObjectFormat input then .error .objectFormatUnsupported
  else
    match input with
    | .arr events => parseChromeTraceArrayFormat events
    | _ => .error .formatError

def countEnter : List ProfileCall → Nat
  | [] => 0
  | .enter _ _ :: rest => countEnter rest + 1
  | .leave _ _ :: rest => countEnter rest

def countLeave : List ProfileCall → Nat
  | [] => 0
  | .enter _ _ :: rest => countLeave rest
  | .leave _ _ :: rest => countLeave rest + 1

def callKey : ProfileCall → String
  | .enter k _ => k
  | .leave k _ => k

def isLeaveCall : ProfileCall → Bool
  | .enter _ _ => false
  | .leave _ _ => true

/-! Concrete trace events used by the closed statements below. -/

def mkEvent (ph : String) (ts : Int) (k : String) : TraceEvent :=
  { pid := some 1, tid := some 1, ph := ph, ts := ts, name := some k,
    argsKey := k, argsName := none, dur := none, tdur := none }

def completeEv : TraceEvent :=
  { pid := some 1, tid := some 1, ph := "X", ts := 0, name := some "f",
    argsKey := "k0", argsName := none, dur := some 10, tdur := none }

def pidEvent (p : Int) (k : String) : TraceEvent :=
  { mkEvent "B" 0 k with pid := some p }

def noTidEvent : TraceEvent := { mkEvent "B" 0 "z" with tid := none }

def balancedSample : EventedProfile :=
  { name := "pid (1): tid (1)", unit := "milliseconds",
    calls := [ProfileCall.enter "f" 0, ProfileCall.leave "f" 0],
    openKeys := [], weights := [("f", 0)], lastValue := 0 }

def groupSample : ProfileGroup :=
  { name := "chrometrace", traceID := "", activeProfileIndex := 0,
    profiles := [balancedSample] }

def tailSampleCache : FrameCache := [("f", { key := "f", name := "f f" })]

/-- C1: refuted on the code; the spec states the intended behavior.  With
the call stack topped by `g` and the end queue holding the timestamp-tied
run `[End h, End g]`, the claim says the scan finds `End g`, swaps it to
the front and closes it first, leaving `End h` pending.  The code closes
`h` immediately instead: the sibling scan runs over the queue left after
`shift()` and starts at index 1 of it, so the tied entry `End g` is never
examined and no swap happens.  The computation below shows the accumulator
receiving `leave h` before `leave g` (a mis-nested close, since `g` is the
open stack top at that point). -/
theorem buildProfile_tiedRun_closes_head_not_top :
    (buildProfile "1" "1"
        [mkEvent "B" 0 "h", mkEvent "B" 1 "g",
         mkEvent "E" 2 "h", mkEvent "E" 2 "g"]).map (fun p => p.calls) =
      .ok [ProfileCall.enter "h" 0, ProfileCall.enter "g" 1,
           ProfileCall.leave "h" 2, ProfileCall.leave "g" 2] := by
  rfl

/-- C2: confirmed.  With both queues non-empty, `getNextQueue` selects the
queue whose head has the strictly earlier timestamp and selects the begin
queue on an exact tie; consequently, for a bucket holding two Begin events
and one End event at one shared timestamp, the first three accumulator
calls are enter, enter, leave. -/
theorem getNextQueue_selection (b e : TraceEvent) (bq eq : List TraceEvent) :
    (b.ts ≤ e.ts → getNextQueue (b :: bq) (e :: eq) = .ok NextQueue.B) ∧
    (e.ts < b.ts → getNextQueue (b :: bq) (e :: eq) = .ok NextQueue.E) ∧
    (buildProfile "1" "1"
        [mkEvent "B" 0 "f", mkEvent "B" 0 "g", mkEvent "E" 0 "f"]).map
        (fun p => p.calls.take 3) =
      .ok [ProfileCall.enter "f" 0, ProfileCall.enter "g" 0,
           ProfileCall.leave "f" 0] := by
  refine ⟨?_, ?_, by rfl⟩
  · intro h
    simp only [getNextQueue]
    rw [if_neg (by simp)]
    by_cases h1 : b.ts < e.ts
    · rw [if_pos h1]
    · rw [if_neg h1, if_neg (by omega)]
  · intro h
    simp only [getNextQueue]
    rw [if_neg (by simp), if_neg (by omega), if_pos h]

theorem getNextQueue_selection_witness :
    getNextQueue [mkEvent "B" 0 "f"] [mkEvent "E" 0 "g"] = .ok NextQueue.B ∧
    getNextQueue [mkEvent "B" 3 "f"] [mkEvent "E" 1 "g"] = .ok NextQueue.E :=
  ⟨(getNextQueue_selection (mkEvent "B" 0 "f") (mkEvent "E" 0 "g") [] []).1
      (by decide),
   (getNextQueue_selection (mkEvent "B" 3 "f") (mkEvent "E" 1 "g") [] []).2.1
      (by decide)⟩

/-- C7: confirmed.  `importChromeTrace` rejects an object exposing a
`traceEvents` field with the unsupported-format error before any parsing,
hands an array to `parseChromeTraceArrayFormat`, and fails with the
generic format error on every input that is neither. -/
theorem importChromeTrace_dispatch (events : List TraceEvent) (s : String) :
    importChromeTrace (ChromeTraceInput.obj true) =
        .error .objectFormatUnsupported ∧
    importChromeTrace (ChromeTraceInput.arr events) =
        parseChromeTraceArrayFormat events ∧
    importChromeTrace (ChromeTraceInput.str s) = .error .formatError ∧
    importChromeTrace (ChromeTraceInput.obj false) = .error .formatError :=
  ⟨rfl, rfl, rfl, rfl⟩

/-- C10: confirmed.  The End branch dereferences the top of the call stack
before the frame-cache membership test, so whenever the end queue is
selected while the call stack is empty the build fails with the generic
TypeError raised inside `createFrameInfoFromEvent` (reading a field of
`undefined`), never reaching the UnbalancedStack check; a whole bucket
exhibiting this is included as the second conjunct. -/
theorem endBranch_emptyStack_typeError (fuel : Nat) (bq eq : List TraceEvent)
    (cache : FrameCache) (prof : EventedProfile) (ft : Int)
    (h : getNextQueue bq eq = .ok NextQueue.E) :
    drainLoop ft (fuel + 1) bq eq [] cache prof = .error .typeErrorUndefined ∧
    buildProfile "1" "1"
        [mkEvent "B" 0 "f", mkEvent "E" 1 "f", mkEvent "E" 2 "g"] =
      .error .typeErrorUndefined := by
  constructor
  · cases eq with
    | nil =>
      exfalso
      by_cases hb : bq = []
      · simp [getNextQueue, hb] at h
      · simp [getNextQueue, hb] at h
    | cons item rest =>
      simp only [drainLoop]
      rw [if_neg (by simp), h]
  · rfl

theorem endBranch_emptyStack_typeError_witness :
    drainLoop 0 1 [] [mkEvent "E" 0 "g"] [] [] (initProfile "x") =
        .error .typeErrorUndefined ∧
    buildProfile "1" "1"
        [mkEvent "B" 0 "f", mkEvent "E" 1 "f", mkEvent "E" 2 "g"] =
      .error .typeErrorUndefined :=
  endBranch_emptyStack_typeError 0 [] [mkEvent "E" 0 "g"] [] (initProfile "x") 0
    (by rfl)

/-- C4 counterexample: a bucket whose only event is a single End event
does not reach the UnbalancedStack check at all: its begin queue is empty
after normalization, so `buildProfile` fails earlier with the
empty-profile error "Profile does not contain any frame events"
(`noFrameEvents` here), a different error than `unbalancedStack`. -/
theorem loneEnd_counterexample :
    buildProfile "1" "1" [mkEvent "E" 0 "g"] = .error ImportError.noFrameEvents := by
  rfl

/-- C3 counterexample: for the bucket `[Begin f at 0, Begin g at 5]` the
forced-close tail leaves `g` at its accumulated weight 0 (third call
below), yet after that close `g`'s total weight is -5, not the 0 it had
immediately before closing: the close applied the negative delta
`0 - lastValue` to every open frame, so the claimed weight preservation
fails for nested leftover frames. -/
theorem forcedTail_weight_counterexample :
    (buildProfile "1" "1" [mkEvent "B" 0 "f", mkEvent "B" 5 "g"]).map
        (fun p => (p.calls, weightOf p "g")) =
      .ok ([ProfileCall.enter "f" 0, ProfileCall.enter "g" 5,
            ProfileCall.leave "g" 0, ProfileCall.leave "f" 0], -5) := by
  rfl

/-- C6 counterexample: an input whose first event has pid 2 and second
event pid 1 discovers the buckets in the order [2, 1], but the produced
profiles come out ordered [pid 1, pid 2]: the nested `for ... in` loops
enumerate integer-like record keys in ascending numeric order, not in
discovery order. -/
theorem parseOrder_counterexample :
    (splitEventsByProcessAndTraceId [pidEvent 2 "a", pidEvent 1 "b"]).map
        Prod.fst = [2, 1] ∧
    (parseChromeTraceArrayFormat [pidEvent 2 "a", pidEvent 1 "b"]).map
        (fun g => g.profiles.map (fun p => p.name)) =
      .ok ["pid (1): tid (1)", "pid (2): tid (1)"] :=
  ⟨rfl, rfl⟩

theorem splitStep_skip (e : TraceEvent) (h : e.pid = none ∨ e.tid = none) :
    ∀ cols, splitStep cols e = cols := by
  intro cols
  rcases h with h | h
  · cases htid : e.tid <;> simp [splitStep, h, htid]
  · cases hpid : e.pid <;> simp [splitStep, h, hpid]

/-- C5: confirmed.  For a Complete (phase X) event: when `dur` or `tdur`
is numeric the normalizer appends a synthetic Begin at `ts` to the begin
queue and a synthetic End at `ts` plus the duration to the end queue,
preferring `dur` when both are numeric; with neither numeric the event
contributes nothing to either queue.  The last conjunct runs the whole
pipeline on a single Complete event with `dur = 10`: one profile, one
frame of total weight 10, entered at relative time 0. -/
theorem completeEvent_normalization (pid tid : String) (s : NormState)
    (e : TraceEvent) (hx : e.ph = "X") :
    ((e.dur.isSome ∨ e.tdur.isSome) →
      normStep pid tid s e =
        { s with beginQueue := s.beginQueue ++ [{ e with ph := "B" }],
                 endQueue := s.endQueue ++
                   [{ e with
                      ph := "E"
                      ts := e.ts + e.dur.getD (e.tdur.getD 0) }] }) ∧
    (∀ d td, e.dur = some d → e.tdur = some td →
      normStep pid tid s e =
        { s with beginQueue := s.beginQueue ++ [{ e with ph := "B" }],
                 endQueue := s.endQueue ++
                   [{ e with ph := "E", ts := e.ts + d }] }) ∧
    (e.dur = none → e.tdur = none → normStep pid tid s e = s) ∧
    (parseChromeTraceArrayFormat [completeEv]).map
        (fun g => g.profiles.map (fun p => (p.calls, weightOf p "k0"))) =
      .ok [([ProfileCall.enter "k0" 0, ProfileCall.leave "k0" 10], 10)] := by
  refine ⟨?_, ?_, ?_, by rfl⟩
  · intro hd
    simp only [normStep, hx]
    rw [if_neg (by simp), if_neg (by simp), if_neg (by simp), if_neg (by simp),
        if_pos ⟨trivial, hd⟩]
  · intro d td hd htd
    simp only [normStep, hx]
    rw [if_neg (by simp), if_neg (by simp), if_neg (by simp), if_neg (by simp),
        if_pos ⟨trivial, Or.inl (by simp [hd])⟩]
    simp [hd]
  · intro hd htd
    simp [normStep, hx, hd, htd]

theorem completeEvent_normalization_witness :
    normStep "1" "1" (initNormState "1" "1") completeEv =
      { initNormState "1" "1" with
        beginQueue := (initNormState "1" "1").beginQueue ++
          [{ completeEv with ph := "B" }],
        endQueue := (initNormState "1" "1").endQueue ++
          [{ completeEv with
             ph := "E"
             ts := completeEv.ts + completeEv.dur.getD (completeEv.tdur.getD 0) }] } :=
  (completeEvent_normalization "1" "1" (initNormState "1" "1") completeEv rfl).1
    (Or.inl rfl)

/-- C8: confirmed.  An event whose pid or tid is not numeric never changes
the partitioner state (it lands in no bucket and raises nothing), and the
result of the whole array parse on a trace with such an event inserted at
any position equals the result on the trace without it. -/
theorem malformedEvent_no_influence (l1 l2 : List TraceEvent) (e : TraceEvent)
    (h : e.pid = none ∨ e.tid = none) :
    (∀ cols, splitStep cols e = cols) ∧
    splitEventsByProcessAndTraceId (l1 ++ e :: l2) =
      splitEventsByProcessAndTraceId (l1 ++ l2) ∧
    parseChromeTraceArrayFormat (l1 ++ e :: l2) =
      parseChromeTraceArrayFormat (l1 ++ l2) := by
  have hstep : ∀ cols, splitStep cols e = cols := splitStep_skip e h
  have hsplit : splitEventsByProcessAndTraceId (l1 ++ e :: l2) =
      splitEventsByProcessAndTraceId (l1 ++ l2) := by
    unfold splitEventsByProcessAndTraceId
    rw [List.foldl_append, List.foldl_append, List.foldl_cons, hstep]
  refine ⟨hstep, hsplit, ?_⟩
  unfold parseChromeTraceArrayFormat
  rw [hsplit]

theorem malformedEvent_no_influence_witness :
    splitEventsByProcessAndTraceId ([mkEvent "B" 0 "f"] ++ noTidEvent :: []) =
      splitEventsByProcessAndTraceId ([mkEvent "B" 0 "f"] ++ []) ∧
    parseChromeTraceArrayFormat ([mkEvent "B" 0 "f"] ++ noTidEvent :: []) =
      parseChromeTraceArrayFormat ([mkEvent "B" 0 "f"] ++ []) :=
  ⟨(malformedEvent_no_influence [mkEvent "B" 0 "f"] [] noTidEvent
      (Or.inr rfl)).2.1,
   (malformedEvent_no_influence [mkEvent "B" 0 "f"] [] noTidEvent
      (Or.inr rfl)).2.2⟩

theorem createFrameInfo_key (e : TraceEvent) :
    (createFrameInfoFromEvent e).key = e.argsKey := rfl

theorem getNextQueue_cons_le (b e : TraceEvent) (bq eq : List TraceEvent)
    (h : b.ts ≤ e.ts) : getNextQueue (b :: bq) (e :: eq) = .ok NextQueue.B := by
  simp only [getNextQueue]
  rw [if_neg (by simp)]
  by_cases h1 : b.ts < e.ts
  · rw [if_pos h1]
  · rw [if_neg h1, if_neg (by omega)]

/-- C4 amended: an End event whose args key never matched any prior Begin
fails with the UnbalancedStack error provided the bucket also contains a
Begin event (here: any bucket `[f, g]` with `f` a Begin no later than the
End `g` and a different args key); a bucket whose only event is a lone
End instead fails earlier with the empty-profile error (see the
counterexample). -/
theorem unmatchedEnd_unbalancedStack (pid tid : String) (f g : TraceEvent)
    (hf : f.ph = "B") (hg : g.ph = "E") (hts : f.ts ≤ g.ts)
    (hk : g.argsKey ≠ f.argsKey) :
    buildProfile pid tid [f, g] =
      .error (ImportError.unbalancedStack g.argsKey) := by
  have hne : ¬(f.argsKey = g.argsKey) := fun h => hk h.symm
  simp only [buildProfile]
  rw [show List.filter
        (fun e => decide (e.ph = "B" ∨ e.ph = "E" ∨ e.ph = "X" ∨ e.ph = "M"))
        [f, g] = [f, g] by simp [hf, hg]]
  rw [show List.foldl (normStep pid tid) (initNormState pid tid) [f, g] =
      { initNormState pid tid with beginQueue := [f], endQueue := [g] } by
    simp [normStep, initNormState, hf, hg]]
  simp only [stableSortByTs, List.foldr, sortedInsertByTs]
  simp only [drainLoop, List.length]
  rw [getNextQueue_cons_le f g [] [] hts]
  simp [getNextQueue, endScan, scanRun, cacheInsertIfAbsent, lookupAssoc,
        createFrameInfo_key, hne]

theorem unmatchedEnd_unbalancedStack_witness :
    buildProfile "1" "1" [mkEvent "B" 0 "f", mkEvent "E" 1 "g"] =
      .error (ImportError.unbalancedStack "g") :=
  unmatchedEnd_unbalancedStack "1" "1" (mkEvent "B" 0 "f") (mkEvent "E" 1 "g")
    rfl rfl (by decide) (by decide)

theorem countEnter_append (a b : List ProfileCall) :
    countEnter (a ++ b) = countEnter a + countEnter b := by
  induction a with
  | nil => simp [countEnter]
  | cons c rest ih => cases c <;> simp [countEnter, ih] <;> omega

theorem countLeave_append (a b : List ProfileCall) :
    countLeave (a ++ b) = countLeave a + countLeave b := by
  induction a with
  | nil => simp [countLeave]
  | cons c rest ih => cases c <;> simp [countLeave, ih] <;> omega

theorem enterFrame_calls (p : EventedProfile) (k : String) (v : Int) :
    (enterFrame p k v).calls = p.calls ++ [ProfileCall.enter k v] := rfl

theorem enterFrame_openKeys (p : EventedProfile) (k : String) (v : Int) :
    (enterFrame p k v).openKeys = k :: p.openKeys := rfl

theorem leaveFrame_calls (p : EventedProfile) (k : String) (v : Int) :
    (leaveFrame p k v).calls = p.calls ++ [ProfileCall.leave k v] := rfl

theorem leaveFrame_openKeys (p : EventedProfile) (k : String) (v : Int) :
    (leaveFrame p k v).openKeys = p.openKeys.tail := rfl

theorem drain_invariant (ft : Int) :
    ∀ (fuel : Nat) (bq eq stack : List TraceEvent) (cache : FrameCache)
      (prof p : EventedProfile) (s : List TraceEvent) (c2 : FrameCache),
      drainLoop ft fuel bq eq stack cache prof = .ok (p, s, c2) →
      countEnter prof.calls = countLeave prof.calls + stack.length →
      prof.openKeys.length = stack.length →
      countEnter p.calls = countLeave p.calls + s.length ∧
      p.openKeys.length = s.length := by
  intro fuel
  induction fuel with
  | zero =>
    intro bq eq stack cache prof p s c2 h h1 h2
    rw [drainLoop] at h
    split at h
    · cases h
      exact ⟨h1, h2⟩
    · cases h
  | succ fuel ih =>
    intro bq eq stack cache prof p s c2 h h1 h2
    simp only [drainLoop] at h
    split at h
    · cases h
      exact ⟨h1, h2⟩
    · split at h
      · cases h
      · split at h
        · cases h
        · rename_i item bqrest
          refine ih _ _ _ _ _ _ _ _ h ?_ ?_
          · rw [enterFrame_calls, countEnter_append, countLeave_append]
            simp [countEnter, countLeave, List.length_cons]
            omega
          · rw [enterFrame_openKeys]
            simp [h2]
      · split at h
        · cases h
        · rename_i item eqrest
          split at h
          · cases h
          · rename_i top srest
            split at h
            · refine ih _ _ _ _ _ _ _ _ h ?_ ?_
              · rw [leaveFrame_calls, countEnter_append, countLeave_append]
                simp only [List.length_cons] at h1
                simp [countEnter, countLeave]
                omega
              · rw [leaveFrame_openKeys, List.length_tail]
                simp only [List.length_cons] at h2
                omega
            · cases h

theorem tail_invariant :
    ∀ (stack : List TraceEvent) (cache : FrameCache) (prof p : EventedProfile),
      forcedTail stack cache prof = .ok p →
      countEnter prof.calls = countLeave prof.calls + stack.length →
      prof.openKeys.length = stack.length →
      countEnter p.calls = countLeave p.calls ∧ p.openKeys = [] := by
  intro stack
  induction stack with
  | nil =>
    intro cache prof p h h1 h2
    rw [forcedTail] at h
    cases h
    refine ⟨by simpa using h1, List.length_eq_zero.mp (by simpa using h2)⟩
  | cons item rest ih =>
    intro cache prof p h h1 h2
    rw [forcedTail] at h
    split at h
    · cases h
    · refine ih _ _ _ h ?_ ?_
      · rw [leaveFrame_calls, countEnter_append, countLeave_append]
        simp only [List.length_cons] at h1
        simp [countEnter, countLeave]
        omega
      · rw [leaveFrame_openKeys, List.length_tail]
        simp only [List.length_cons] at h2
        omega

/-- C9: confirmed.  Whenever `buildProfile` returns successfully, the
accumulator received exactly as many leave-frame calls as enter-frame
calls (merge-loop closes plus the forced-close tail), and its open-frame
stack — which mirrors the builder's call stack, pushed on every Begin and
popped on every close — is empty at the moment `build()` is invoked:
every entered frame was left exactly once. -/
theorem buildProfile_balanced (pid tid : String) (events : List TraceEvent)
    (p : EventedProfile) (h : buildProfile pid tid events = .ok p) :
    countEnter p.calls = countLeave p.calls ∧ p.openKeys = [] := by
  simp only [buildProfile] at h
  split at h
  · cases h
  · split at h
    · cases h
    · rename_i p1s1c1 heq
      refine tail_invariant _ _ _ _ h ?_ ?_
      · exact (drain_invariant _ _ _ _ _ _ _ _ _ _ heq
          (by simp [initProfile, countEnter, countLeave]) (by simp [initProfile])).1
      · exact (drain_invariant _ _ _ _ _ _ _ _ _ _ heq
          (by simp [initProfile, countEnter, countLeave]) (by simp [initProfile])).2

theorem buildProfile_balanced_witness :
    countEnter balancedSample.calls = countLeave balancedSample.calls ∧
    balancedSample.openKeys = [] :=
  buildProfile_balanced "1" "1" [mkEvent "B" 0 "f"] balancedSample (by rfl)

theorem buildAll_spec :
    ∀ (l : List (Int × Int × List TraceEvent)) (ps : List EventedProfile),
      buildAll l = .ok ps →
      ps.length = l.length ∧
      ∀ i (h1 : i < l.length) (h2 : i < ps.length),
        buildProfile (toString (l.get ⟨i, h1⟩).1) (toString (l.get ⟨i, h1⟩).2.1)
          (l.get ⟨i, h1⟩).2.2 = .ok (ps.get ⟨i, h2⟩) := by
  intro l
  induction l with
  | nil =>
    intro ps h
    rw [buildAll] at h
    cases h
    exact ⟨rfl, fun i h1 h2 => absurd h1 (by simp)⟩
  | cons b rest ih =>
    intro ps h
    rw [buildAll] at h
    split at h
    · cases h
    · rename_i p hp
      split at h
      · cases h
      · rename_i ps2 hps
        cases h
        obtain ⟨hlen, hall⟩ := ih ps2 hps
        refine ⟨by simp [hlen], ?_⟩
        intro i h1 h2
        cases i with
        | zero => simpa using hp
        | succ j =>
          simp only [List.get_cons_succ]
          exact hall j (by simpa using h1) (by simpa using h2)

/-- C6 amended: on every successful array-format import the result is a
ProfileGroup with name "chrometrace", traceID "", activeProfileIndex 0,
and exactly one profile per (pid, tid) bucket; the profiles are ordered
by the `for ... in` key enumeration of the nested records — ascending
numeric pid (and, within a pid, ascending numeric tid) for the
integer-like ids, insertion order only for the others (`bucketSeq`) —
which coincides with bucket-discovery order only when buckets are first
encountered in ascending id order (see the counterexample). -/
theorem parse_group_shape (input : List TraceEvent) (g : ProfileGroup)
    (h : parseChromeTraceArrayFormat input = .ok g) :
    g.name = "chrometrace" ∧ g.traceID = "" ∧ g.activeProfileIndex = 0 ∧
    g.profiles.length = (bucketSeq input).length ∧
    ∀ i (h1 : i < (bucketSeq input).length) (h2 : i < g.profiles.length),
      buildProfile (toString ((bucketSeq input).get ⟨i, h1⟩).1)
        (toString ((bucketSeq input).get ⟨i, h1⟩).2.1)
        ((bucketSeq input).get ⟨i, h1⟩).2.2 = .ok (g.profiles.get ⟨i, h2⟩) := by
  unfold parseChromeTraceArrayFormat at h
  split at h
  · cases h
  · rename_i profiles hb
    cases h
    obtain ⟨hlen, hall⟩ := buildAll_spec _ _ hb
    exact ⟨rfl, rfl, rfl, hlen, hall⟩

theorem parse_group_shape_witness :
    groupSample.name = "chrometrace" ∧ groupSample.traceID = "" ∧
    groupSample.activeProfileIndex = 0 ∧
    groupSample.profiles.length = (bucketSeq [mkEvent "B" 0 "f"]).length :=
  ⟨(parse_group_shape [mkEvent "B" 0 "f"] groupSample (by rfl)).1,
   (parse_group_shape [mkEvent "B" 0 "f"] groupSample (by rfl)).2.1,
   (parse_group_shape [mkEvent "B" 0 "f"] groupSample (by rfl)).2.2.1,
   (parse_group_shape [mkEvent "B" 0 "f"] groupSample (by rfl)).2.2.2.1⟩

theorem lookup_bumpWeight_zero (w : List (String × Int)) (k2 k : String) :
    (lookupAssoc (bumpWeight w k2 0) k).getD 0 = (lookupAssoc w k).getD 0 := by
  induction w with
  | nil => by_cases h : k2 = k <;> simp [bumpWeight, lookupAssoc, h]
  | cons kv rest ih =>
    obtain ⟨k3, v⟩ := kv
    by_cases h : k3 = k2
    · subst h
      by_cases h2 : k3 = k <;> simp [bumpWeight, lookupAssoc, h2]
    · by_cases h2 : k3 = k
      · subst h2
        simp [bumpWeight, lookupAssoc, h]
      · simp [bumpWeight, lookupAssoc, h, h2, ih]

theorem lookup_foldl_bump_zero (ks : List String) (w : List (String × Int))
    (k : String) :
    (lookupAssoc (ks.foldl (fun w2 k2 => bumpWeight w2 k2 0) w) k).getD 0 =
      (lookupAssoc w k).getD 0 := by
  induction ks generalizing w with
  | nil => rfl
  | cons k2 rest ih =>
    rw [List.foldl_cons, ih]
    exact lookup_bumpWeight_zero w k2 k

theorem leaveFrame_weight_preserved (prof : EventedProfile) (k : String)
    (h : weightOf prof k = prof.lastValue) :
    weightOf (leaveFrame prof k (weightOf prof k)) k = weightOf prof k := by
  show (lookupAssoc (prof.openKeys.foldl
      (fun w k2 => bumpWeight w k2 (weightOf prof k - prof.lastValue))
      prof.weights) k).getD 0 = weightOf prof k
  rw [show weightOf prof k - prof.lastValue = 0 by omega]
  exact lookup_foldl_bump_zero prof.openKeys prof.weights k

theorem lookupAssoc_mem_key (cache : FrameCache) (k : String) (fr : FrameInfo)
    (hwf : ∀ kv ∈ cache, (kv.2 : FrameInfo).key = kv.1)
    (h : lookupAssoc cache k = some fr) : fr.key = k := by
  induction cache with
  | nil => cases h
  | cons kv rest ih =>
    obtain ⟨k3, v⟩ := kv
    rw [lookupAssoc] at h
    split at h
    · cases h
      rename_i hk
      rw [hwf (k3, fr) (List.mem_cons_self _ _)]
      exact hk
    · exact ih (fun x hx => hwf x (List.mem_cons_of_mem _ hx)) h

/-- C3 amended: after the merge loop the leftover stack is popped in LIFO
order and, for each frame, the accumulator's leave operation is invoked
with that frame's own currently accumulated total weight, and this never
fails when every stacked frame's key is in the frame cache (as is the
case for frames that were entered); the weight-preservation part of the
claim holds only conditionally: a close at the frame's accumulated weight
leaves that weight unchanged when the weight equals the accumulator's
last timestamp (e.g. a lone Begin entered at the anchor instant), but not
in general (see the counterexample, where a nested leftover frame takes a
negative delta). -/
theorem forcedTail_spec (stack : List TraceEvent) (cache : FrameCache)
    (prof : EventedProfile)
    (hwf : ∀ kv ∈ cache, (kv.2 : FrameInfo).key = kv.1)
    (hc : ∀ e ∈ stack,
      (lookupAssoc cache (createFrameInfoFromEvent e).key).isSome = true) :
    ∃ p extra, forcedTail stack cache prof = .ok p ∧
      p.calls = prof.calls ++ extra ∧
      extra.map callKey = stack.map (fun e => (createFrameInfoFromEvent e).key) ∧
      (∀ c ∈ extra, isLeaveCall c = true) ∧
      (∀ e rest2, stack = e :: rest2 →
        extra.head? = some (ProfileCall.leave (createFrameInfoFromEvent e).key
          (weightOf prof (createFrameInfoFromEvent e).key))) ∧
      (∀ k, weightOf prof k = prof.lastValue →
        weightOf (leaveFrame prof k (weightOf prof k)) k = weightOf prof k) := by
  induction stack generalizing prof with
  | nil =>
    refine ⟨prof, [], rfl, by simp, rfl, by simp, ?_, ?_⟩
    · intro e r h
      cases h
    · exact fun k h => leaveFrame_weight_preserved prof k h
  | cons item rest ih =>
    have hsome := hc item (List.mem_cons_self _ _)
    obtain ⟨frame, hframe⟩ := Option.isSome_iff_exists.mp hsome
    have hkey : frame.key = (createFrameInfoFromEvent item).key :=
      lookupAssoc_mem_key _ _ _ hwf hframe
    have hstep : forcedTail (item :: rest) cache prof =
        forcedTail rest cache
          (leaveFrame prof frame.key (weightOf prof frame.key)) := by
      rw [forcedTail, hframe]
    obtain ⟨p, extra, h1, h2, h3, h4, h5, h6⟩ :=
      ih (leaveFrame prof frame.key (weightOf prof frame.key))
        (fun e he => hc e (List.mem_cons_of_mem _ he))
    refine ⟨p, ProfileCall.leave frame.key (weightOf prof frame.key) :: extra,
      ?_, ?_, ?_, ?_, ?_, fun k h => leaveFrame_weight_preserved prof k h⟩
    · rw [hstep]
      exact h1
    · rw [h2, leaveFrame_calls]
      simp
    · simp [callKey, hkey, h3]
    · intro c hc2
      rcases List.mem_cons.mp hc2 with rfl | hc2
      · rfl
      · exact h4 c hc2
    · intro e r2 hst
      cases hst
      simp [hkey]


theorem forcedTail_spec_witness :
    ∃ p extra,
      forcedTail [mkEvent "B" 0 "f"] tailSampleCache (initProfile "x") = .ok p ∧
      p.calls = (initProfile "x").calls ++ extra ∧
      extra.map callKey =
        [mkEvent "B" 0 "f"].map (fun e => (createFrameInfoFromEvent e).key) ∧
      (∀ c ∈ extra, isLeaveCall c = true) ∧
      (∀ e rest2, [mkEvent "B" 0 "f"] = e :: rest2 →
        extra.head? = some (ProfileCall.leave (createFrameInfoFromEvent e).key
          (weightOf (initProfile "x") (createFrameInfoFromEvent e).key))) ∧
      (∀ k, weightOf (initProfile "x") k = (initProfile "x").lastValue →
        weightOf (leaveFrame (initProfile "x") k
          (weightOf (initProfile "x") k)) k = weightOf (initProfile "x") k) :=
  forcedTail_spec [mkEvent "B" 0 "f"] tailSampleCache (initProfile "x")
    (by decide) (by decide)
